import Mathlib

/-!
Shallow embedding of the music-theory engine of the ai-music-collaborator
repository, and theorems checking its specification against the code.

Embedded source files:
* `src/unnamed/part_009` (ReharmEditor component) — namespace `Reharm`
* `src/api/src/modules/generate/guards/prosody.guard.ts` — namespace `Guard`
* `src/frontend/components/lyrics-editor.tsx` — namespace `Lyrics`

Conventions of the embedding:
* JS strings are Lean `String`s; JS string methods that iterate positions are
  re-expressed over `String.data` (a `List Char`) so that all definitions are
  kernel-computable.
* JS numbers holding beat durations / positions are modelled as `ℚ` (the only
  arithmetic performed on them is subtraction of 0.5, which is exact in both).
* `Date.now()` is modelled as an explicit `now : Nat` parameter of the
  functions that read it.
* `Array.prototype.findIndex` returning `-1` is modelled as `Option Nat`
  (`none` for `-1`).
-/

namespace AMC

/-- Helper for `strIncludes`: `needle` occurs as a contiguous sublist. -/
def containsSub (needle : List Char) : List Char → Bool
  | [] => needle.isEmpty
  | c :: rest => needle.isPrefixOf (c :: rest) || containsSub needle rest

/-- JS `String.prototype.includes`: `sub` occurs as a contiguous substring. -/
def strIncludes (s sub : String) : Bool :=
  containsSub sub.data s.data

/-- JS `String.prototype.toLowerCase` restricted to ASCII, over the char list. -/
def toLowerString (s : String) : String :=
  ⟨s.data.map Char.toLower⟩

/-- JS `String.prototype.toUpperCase` restricted to ASCII, over the char list. -/
def toUpperString (s : String) : String :=
  ⟨s.data.map Char.toUpper⟩

/-- JS `word.endsWith('e')`: the last character is `'e'`. -/
def endsWithE (s : String) : Bool :=
  s.data.getLast? == some 'e'

namespace Reharm

/-- The `Chord` interface of `src/unnamed/part_009` (lines 13-23). -/
structure Chord where
  id : String
  root : String
  quality : String
  extensions : List String
  function : String
  roman : String
  nashville : String
  duration : ℚ
  position : ℚ
deriving DecidableEq, Repr

/-- Placeholder chord for the (always in-bounds) JS array indexing. -/
def defaultChord : Chord := ⟨"", "", "", [], "", "", "", 0, 0⟩

instance : Inhabited Chord := ⟨defaultChord⟩

/-- The `ReharmSuggestion` interface of `src/unnamed/part_009` (lines 25-32). -/
structure ReharmSuggestion where
  id : String
  description : String
  chords : List Chord
  complexity : String
  style : String
  confidence : ℚ
deriving DecidableEq, Repr

/-- Value type of the `SECONDARY_DOMINANTS` / `MODAL_INTERCHANGE` tables. -/
structure DomEntry where
  root : String
  quality : String
  function : String
deriving DecidableEq, Repr

/-- The `SECONDARY_DOMINANTS` table (part_009 lines 58-64), in insertion
order (JS `Object.entries` iterates string keys in insertion order). -/
def SECONDARY_DOMINANTS : List (String × DomEntry) :=
  [ ("V/V",   ⟨"D", "7", "Secondary dominant to V"⟩),
    ("V/IV",  ⟨"C", "7", "Secondary dominant to IV"⟩),
    ("V/vi",  ⟨"E", "7", "Secondary dominant to vi"⟩),
    ("V/ii",  ⟨"A", "7", "Secondary dominant to ii"⟩),
    ("V/iii", ⟨"B", "7", "Secondary dominant to iii"⟩) ]

/-- The `MODAL_INTERCHANGE` table (part_009 lines 66-72), in insertion order. -/
def MODAL_INTERCHANGE : List (String × DomEntry) :=
  [ ("bVII", ⟨"Bb", "7", "Modal interchange from parallel minor"⟩),
    ("bVI",  ⟨"Ab", "maj7", "Modal interchange from parallel minor"⟩),
    ("bIII", ⟨"Eb", "maj7", "Modal interchange from parallel minor"⟩),
    ("bII",  ⟨"Db", "maj7", "Modal interchange from parallel minor"⟩),
    ("iv",   ⟨"Fm", "m7", "Modal interchange from parallel minor"⟩) ]

/-- The `majorScales` table inside `getScale` (part_009 lines 335-348). -/
def majorScales : List (String × List String) :=
  [ ("C",  ["C", "D", "E", "F", "G", "A", "B"]),
    ("G",  ["G", "A", "B", "C", "D", "E", "F#"]),
    ("D",  ["D", "E", "F#", "G", "A", "B", "C#"]),
    ("A",  ["A", "B", "C#", "D", "E", "F#", "G#"]),
    ("E",  ["E", "F#", "G#", "A", "B", "C#", "D#"]),
    ("B",  ["B", "C#", "D#", "E", "F#", "G#", "A#"]),
    ("F#", ["F#", "G#", "A#", "B", "C#", "D#", "E#"]),
    ("F",  ["F", "G", "A", "Bb", "C", "D", "E"]),
    ("Bb", ["Bb", "C", "D", "Eb", "F", "G", "A"]),
    ("Eb", ["Eb", "F", "G", "Ab", "Bb", "C", "D"]),
    ("Ab", ["Ab", "Bb", "C", "Db", "Eb", "F", "G"]),
    ("Db", ["Db", "Eb", "F", "Gb", "Ab", "Bb", "C"]) ]

/-- `getScale` (part_009 lines 334-351): `majorScales[key] || majorScales['C']`
— an unknown key silently falls back to the C-major entry. -/
def getScale (key : String) : List String :=
  (majorScales.lookup key).getD ((majorScales.lookup "C").getD [])

/-- The `numerals` array inside `getRomanNumeral` (part_009 line 314). -/
def numerals : List String :=
  ["I", "ii", "iii", "IV", "V", "vi", "vii°"]

/-- `getRomanNumeral` (part_009 lines 307-326). `scale.indexOf(root)` is
modelled with `findIdx?` (`none` for `-1`). -/
def getRomanNumeral (root quality key : String) : String :=
  let scale := getScale key
  match scale.findIdx? (fun x => x == root) with
  | none => root
  | some rootIndex =>
    let numeral := numerals.getD rootIndex ""
    if strIncludes quality "maj7" then
      toUpperString numeral ++ "maj7"
    else if strIncludes quality "7" && !(strIncludes quality "maj7") then
      toUpperString numeral ++ "7"
    else if strIncludes quality "m" then
      toLowerString numeral
    else numeral

/-- `getNashvilleNumber` (part_009 lines 328-332). -/
def getNashvilleNumber (root key : String) : String :=
  let scale := getScale key
  match scale.findIdx? (fun x => x == root) with
  | some rootIndex => toString (rootIndex + 1)
  | none => root

/-- The chromatic `notes` array inside `getTritoneSubstitution`
(part_009 line 294). -/
def notes : List String :=
  ["C", "C#", "D", "D#", "E", "F", "F\x23", "G", "G#", "A", "A#", "B"]

/-- `getTritoneSubstitution` (part_009 lines 293-298). `indexOf` yields `-1`
for a root not in the table, and JS `(-1 + 6) % 12 = 5`, so such a root maps
to `notes[5] = "F"`. -/
def getTritoneSubstitution (root : String) : String :=
  let rootIndex : Int :=
    match notes.findIdx? (fun x => x == root) with
    | some i => (i : Int)
    | none => -1
  let tritoneIndex : Int := (rootIndex + 6) % 12
  notes.getD tritoneIndex.toNat ""

/-- `getExtendedHarmony` (part_009 lines 300-305). -/
def getExtendedHarmony (quality : String) : List String :=
  if strIncludes quality "maj7" then ["9", "13"]
  else if strIncludes quality "m7" then ["9", "11"]
  else if strIncludes quality "7" then ["9", "11", "13"]
  else []

/-- The `targetMap` inside `findTargetChordIndex` (part_009 lines 267-273). -/
def targetMap : List (String × String) :=
  [("V/V", "V"), ("V/IV", "IV"), ("V/vi", "vi"), ("V/ii", "ii"), ("V/iii", "iii")]

/-- `findTargetChordIndex` (part_009 lines 265-277). For a `function_` outside
the map, the JS comparison `chord.function === undefined` is always false, so
the result is `-1` (`none`). -/
def findTargetChordIndex (chords : List Chord) (function' : String) : Option Nat :=
  match targetMap.lookup function' with
  | none => none
  | some target => chords.findIdx? (fun c => c.function == target)

/-- The `targetMap` inside `findModalInterchangeTarget` (part_009
lines 281-287). -/
def modalTargetMap : List (String × String) :=
  [("bVII", "VII"), ("bVI", "VI"), ("bIII", "III"), ("bII", "II"), ("iv", "IV")]

/-- `findModalInterchangeTarget` (part_009 lines 279-291). -/
def findModalInterchangeTarget (chords : List Chord) (function' : String) : Option Nat :=
  match modalTargetMap.lookup function' with
  | none => none
  | some target => chords.findIdx? (fun c => c.function == target)

/-- `generateSecondaryDominantProgression` (part_009 lines 188-211). `key` is
the component prop captured by the closure; `now` models `Date.now()`. The
second `match` arm is unreachable because `targetMap` and
`SECONDARY_DOMINANTS` have the same keys. -/
def generateSecondaryDominantProgression (key : String) (originalChords : List Chord)
    (function' : String) (now : Nat) : List Chord :=
  match findTargetChordIndex originalChords function' with
  | none => originalChords
  | some targetIndex =>
    match SECONDARY_DOMINANTS.lookup function' with
    | none => originalChords
    | some secondaryDominant =>
      let target := originalChords.getD targetIndex defaultChord
      let newChord : Chord :=
        { id := "secondary_" ++ toString now
          root := secondaryDominant.root
          quality := secondaryDominant.quality
          extensions := []
          function := function'
          roman := getRomanNumeral secondaryDominant.root secondaryDominant.quality key
          nashville := getNashvilleNumber secondaryDominant.root key
          duration := target.duration
          position := target.position - 0.5 }
      originalChords.insertIdx targetIndex newChord

/-- `generateModalInterchangeProgression` (part_009 lines 213-236): replaces
the target chord in place (`newChords[targetIndex] = newChord`). -/
def generateModalInterchangeProgression (key : String) (originalChords : List Chord)
    (function' : String) (now : Nat) : List Chord :=
  match MODAL_INTERCHANGE.lookup function' with
  | none => originalChords
  | some modalChord =>
    match findModalInterchangeTarget originalChords function' with
    | none => originalChords
    | some targetIndex =>
      let target := originalChords.getD targetIndex defaultChord
      let newChord : Chord :=
        { id := "modal_" ++ toString now
          root := modalChord.root
          quality := modalChord.quality
          extensions := []
          function := function'
          roman := getRomanNumeral modalChord.root modalChord.quality key
          nashville := getNashvilleNumber modalChord.root key
          duration := target.duration
          position := target.position }
      originalChords.set targetIndex newChord

/-- `generateTritoneSubstitution` (part_009 lines 238-253). -/
def generateTritoneSubstitution (key : String) (originalChords : List Chord)
    (now : Nat) : List Chord :=
  originalChords.map fun chord =>
    if strIncludes chord.quality "7" && !(strIncludes chord.quality "maj7") then
      let tritoneRoot := getTritoneSubstitution chord.root
      { chord with
          id := "tritone_" ++ toString now
          root := tritoneRoot
          roman := getRomanNumeral tritoneRoot chord.quality key
          nashville := getNashvilleNumber tritoneRoot key }
    else chord

/-- `generateExtendedHarmony` (part_009 lines 255-263). -/
def generateExtendedHarmony (originalChords : List Chord) : List Chord :=
  originalChords.map fun chord =>
    { chord with extensions := getExtendedHarmony chord.quality }

/-- `generateSuggestions` (part_009 lines 138-186): two table-driven strategy
families followed by the two singleton strategies, concatenated in source
order. The spec's external name for this operation is
`generateReharmSuggestions(chords, key)`. -/
def generateSuggestions (key : String) (chords : List Chord) (now : Nat) :
    List ReharmSuggestion :=
  (SECONDARY_DOMINANTS.map fun p =>
    { id := "secondary_" ++ p.1
      description := "Add " ++ p.1 ++ " (" ++ p.2.root ++ p.2.quality ++ ")"
      chords := generateSecondaryDominantProgression key chords p.1 now
      complexity := "intermediate"
      style := "Jazz"
      confidence := 0.8 })
  ++ (MODAL_INTERCHANGE.map fun p =>
    { id := "modal_" ++ p.1
      description := "Add " ++ p.1 ++ " (" ++ p.2.root ++ p.2.quality ++ ")"
      chords := generateModalInterchangeProgression key chords p.1 now
      complexity := "advanced"
      style := "Rock/Pop"
      confidence := 0.7 })
  ++ [ { id := "tritone_sub"
         description := "Tritone substitution for dominant chords"
         chords := generateTritoneSubstitution key chords now
         complexity := "advanced"
         style := "Jazz"
         confidence := 0.6 } ]
  ++ [ { id := "extended_harmony"
         description := "Add extended harmonies (9ths, 11ths, 13ths)"
         chords := generateExtendedHarmony chords
         complexity := "intermediate"
         style := "Jazz/Fusion"
         confidence := 0.9 } ]

end Reharm

/-- Character class of the regex `/[aeiouy]/gi` (case-insensitive). -/
def isVowelY (c : Char) : Bool :=
  let l := c.toLower
  l == 'a' || l == 'e' || l == 'i' || l == 'o' || l == 'u' || l == 'y'

/-- Character class of the regex `/[aeiou]/` (case-sensitive, no `y`). -/
def isVowelStrict (c : Char) : Bool :=
  c == 'a' || c == 'e' || c == 'i' || c == 'o' || c == 'u'

/-- Test for the regex `/[aeiou]{2,}/`: two adjacent strict vowels occur. -/
def hasVowelCluster : List Char → Bool
  | [] => false
  | [_] => false
  | a :: b :: rest => (isVowelStrict a && isVowelStrict b) || hasVowelCluster (b :: rest)

namespace Guard

/-- The `severity` field of `ProsodyWarning` (prosody.guard.ts line 10). -/
inductive Severity
  | low
  | medium
  | high
deriving DecidableEq, Repr

/-- The `type` field of `ProsodyWarning` (prosody.guard.ts line 9). -/
inductive WarningType
  | prosodyClash
  | nonDiatonic
  | voiceLeading
  | rhythmConflict
deriving DecidableEq, Repr

/-- The `ProsodyWarning` interface (prosody.guard.ts lines 8-14). -/
structure ProsodyWarning where
  type : WarningType
  severity : Severity
  message : String
  position : Nat
  suggestion : Option String
deriving DecidableEq, Repr

/-- The loosely typed chord objects examined by the guard: only `root` and
`quality` are read by `checkNonDiatonicWarnings` and its helpers. -/
structure GChord where
  root : String
  quality : String
deriving DecidableEq, Repr

/-- The `majorScales` table inside the guard's `getScale`
(prosody.guard.ts lines 329-342); textually identical to the one in
part_009. -/
def majorScales : List (String × List String) :=
  [ ("C",  ["C", "D", "E", "F", "G", "A", "B"]),
    ("G",  ["G", "A", "B", "C", "D", "E", "F#"]),
    ("D",  ["D", "E", "F#", "G", "A", "B", "C#"]),
    ("A",  ["A", "B", "C#", "D", "E", "F#", "G#"]),
    ("E",  ["E", "F#", "G#", "A", "B", "C#", "D#"]),
    ("B",  ["B", "C#", "D#", "E", "F#", "G#", "A#"]),
    ("F#", ["F#", "G#", "A#", "B", "C#", "D#", "E#"]),
    ("F",  ["F", "G", "A", "Bb", "C", "D", "E"]),
    ("Bb", ["Bb", "C", "D", "Eb", "F", "G", "A"]),
    ("Eb", ["Eb", "F", "G", "Ab", "Bb", "C", "D"]),
    ("Ab", ["Ab", "Bb", "C", "Db", "Eb", "F", "G"]),
    ("Db", ["Db", "Eb", "F", "Gb", "Ab", "Bb", "C"]) ]

/-- The guard's `getScale` (prosody.guard.ts lines 328-345):
`majorScales[key] || majorScales['C']`. -/
def getScale (key : String) : List String :=
  (majorScales.lookup key).getD ((majorScales.lookup "C").getD [])

/-- The guard's `countSyllables` (prosody.guard.ts lines 294-305): counts
individual vowel characters, then applies two one-shot adjustments. -/
def countSyllables (word : String) : Nat :=
  let vowels := word.data.filter isVowelY
  if vowels.isEmpty then 1
  else
    let count0 := vowels.length
    let count1 := if endsWithE word && decide (1 < count0) then count0 - 1 else count0
    let count2 := if hasVowelCluster word.data then count1 - 1 else count1
    max 1 count2

/-- The `resolutions` table inside `getSecondaryDominantResolution`
(prosody.guard.ts lines 369-374). -/
def resolutions : List (String × String) :=
  [("D", "G"), ("A", "D"), ("E", "A"), ("B", "E")]

/-- `getSecondaryDominantResolution` (prosody.guard.ts lines 368-377):
`resolutions[dominantRoot] || dominantRoot`. -/
def getSecondaryDominantResolution (dominantRoot : String) : String :=
  (resolutions.lookup dominantRoot).getD dominantRoot

/-- `isSecondaryDominant` (prosody.guard.ts lines 350-363). -/
def isSecondaryDominant (chord : GChord) (allChords : List GChord) (index : Nat) : Bool :=
  if !(strIncludes chord.quality "7") || strIncludes chord.quality "maj7" then
    false
  else
    match allChords.get? (index + 1) with
    | some nextChord => getSecondaryDominantResolution chord.root == nextChord.root
    | none => false

/-- The `modalChords` table inside `isModalInterchange`
(prosody.guard.ts lines 383-390). -/
def modalChords : List (String × List String) :=
  [ ("C", ["Bb", "Ab", "Eb", "Db", "Fm"]),
    ("G", ["F", "Eb", "Bb", "Ab", "Cm"]),
    ("D", ["C", "Bb", "F", "Eb", "Gm"]),
    ("A", ["G", "F", "C", "Bb", "Dm"]),
    ("E", ["D", "C", "G", "F", "Am"]),
    ("B", ["A", "G", "D", "C", "Em"]) ]

/-- `isModalInterchange` (prosody.guard.ts lines 382-394). -/
def isModalInterchange (chord : GChord) (key : String) : Bool :=
  ((modalChords.lookup key).getD []).contains chord.root

/-- The body of the `chords.forEach` loop of `checkNonDiatonicWarnings`
(prosody.guard.ts lines 109-141): the warnings pushed for the chord at
`index`, in push order (plain non-diatonic check first, then the
secondary-dominant and modal-interchange detectors, each pushing
independently — none of them suppresses the medium warning). -/
def warningsForChord (key : String) (scale : List String) (allChords : List GChord)
    (index : Nat) (chord : GChord) : List ProsodyWarning :=
  (if !(scale.contains chord.root) then
    [ { type := .nonDiatonic
        severity := .medium
        message := "Non-diatonic chord: " ++ chord.root ++ chord.quality
        position := index
        suggestion := some ("Consider using a diatonic chord from " ++ key ++ " major scale") } ]
   else [])
  ++ (if isSecondaryDominant chord allChords index then
    [ { type := .nonDiatonic
        severity := .low
        message := "Secondary dominant detected: " ++ chord.root ++ chord.quality
        position := index
        suggestion := some "This is a common jazz technique - verify intentional use" } ]
   else [])
  ++ (if isModalInterchange chord key then
    [ { type := .nonDiatonic
        severity := .low
        message := "Modal interchange detected: " ++ chord.root ++ chord.quality
        position := index
        suggestion := some "This borrows from parallel minor - verify intentional use" } ]
   else [])

/-- `checkNonDiatonicWarnings` (prosody.guard.ts lines 92-144). The repository
loads `key` from the project row (`project.key`); the embedding passes that
key directly. -/
def checkNonDiatonicWarnings (key : String) (chords : List GChord) : List ProsodyWarning :=
  let scale := getScale key
  chords.enum.flatMap fun p => warningsForChord key scale chords p.1 p.2

end Guard

namespace Lyrics

/-- Whitespace test backing the embedding of JS `String.prototype.trim`. -/
def isWS (c : Char) : Bool := c.isWhitespace

/-- JS `String.prototype.trim`: strip whitespace from both ends. -/
def trimString (s : String) : String :=
  ⟨((s.data.dropWhile isWS).reverse.dropWhile isWS).reverse⟩

/-- Helper for `splitString`: JS `split` on a single-character separator,
keeping empty fields. -/
def splitOnChar (sep : Char) : List Char → List (List Char)
  | [] => [[]]
  | c :: rest =>
    match splitOnChar sep rest with
    | [] => [[]]
    | w :: ws => if c == sep then [] :: w :: ws else (c :: w) :: ws

/-- JS `s.split(sep)` for a one-character separator. -/
def splitString (sep : Char) (s : String) : List String :=
  (splitOnChar sep s.data).map fun l => (⟨l⟩ : String)

/-- Character class of the regex `\w`: `[A-Za-z0-9_]`. -/
def isWordChar (c : Char) : Bool := c.isAlphanum || c == '_'

/-- JS `word.replace(/[^\w]/g, '')`: delete every non-word character. -/
def stripNonWord (s : String) : String :=
  ⟨s.data.filter isWordChar⟩

/-- The `RhymeGroup` interface (lyrics-editor.tsx lines 20-24); `strength` is
kept as the literal string the source stores. -/
structure RhymeGroup where
  pattern : String
  words : List String
  strength : String
deriving DecidableEq, Repr

/-- The frontend `countSyllables` (lyrics-editor.tsx lines 92-104); textually
identical to the guard's copy. -/
def countSyllables (word : String) : Nat :=
  let vowels := word.data.filter isVowelY
  if vowels.isEmpty then 1
  else
    let count0 := vowels.length
    let count1 := if endsWithE word && decide (1 < count0) then count0 - 1 else count0
    let count2 := if hasVowelCluster word.data then count1 - 1 else count1
    max 1 count2

/-- `getRhymePattern` (lyrics-editor.tsx lines 143-147): whole word when its
length is at most 2, otherwise `word.slice(-2)` (the last two characters). -/
def getRhymePattern (word : String) : String :=
  if word.length ≤ 2 then word
  else ⟨word.data.drop (word.data.length - 2)⟩

/-- The per-line end-word extraction of `analyzeRhymes` (lyrics-editor.tsx
lines 115-118): last space-separated token of the trimmed line, lowercased,
non-word characters stripped. -/
def endWordOf (line : String) : String :=
  let words := splitString ' ' (trimString line)
  stripNonWord (toLowerString (words.getLastD ""))

/-- The `endWords` list of `analyzeRhymes` (lyrics-editor.tsx lines 114-118):
lines with non-blank trimmed content, each mapped to its end word. -/
def endWords (text : String) : List String :=
  ((splitString '\n' text).filter fun l => trimString l != "").map endWordOf

/-- JS `group.words.push(word)` applied to the first group found with the
matching pattern (`groups.find` in lyrics-editor.tsx lines 133-136). -/
def addToFirstGroup : List RhymeGroup → String → String → List RhymeGroup
  | [], _, _ => []
  | g :: gs, pat, word =>
    if g.pattern == pat then { g with words := g.words ++ [word] } :: gs
    else g :: addToFirstGroup gs pat word

/-- One iteration of the `endWords.forEach` loop of `analyzeRhymes`
(lyrics-editor.tsx lines 123-138); the state is the pair of the mutable
`groups` and `patterns` arrays. -/
def addEndWord (st : List RhymeGroup × List String) (word : String) :
    List RhymeGroup × List String :=
  let pat := getRhymePattern word
  if !(st.2.contains pat) then
    (st.1 ++ [{ pattern := pat, words := [word], strength := "perfect" }], st.2 ++ [pat])
  else
    (addToFirstGroup st.1 pat word, st.2)

/-- `analyzeRhymes` (lyrics-editor.tsx lines 113-141): group line-end words by
rhyme pattern, keep groups of at least two members. -/
def analyzeRhymes (text : String) : List RhymeGroup :=
  let st := (endWords text).foldl addEndWord ([], [])
  st.1.filter fun g => decide (1 < g.words.length)

end Lyrics

/-- Number of maximal runs of `[aeiouy]` vowels in a character list (a run of
adjacent vowels contributes exactly one). -/
def vowelRuns : List Char → Nat
  | [] => 0
  | [c] => if isVowelY c then 1 else 0
  | a :: b :: rest => (if isVowelY a && !(isVowelY b) then 1 else 0) + vowelRuns (b :: rest)

/-- Counter that follows the claim's words ("number of maximal vowel-cluster
runs, decremented by 1 when the word ends in e and the count exceeds 1,
never less than 1"); written only to compare the spec's description with the
source's `countSyllables`. -/
def countSyllablesRunBased (word : String) : Nat :=
  let runs := vowelRuns word.data
  let c := if endsWithE word && decide (1 < runs) then runs - 1 else runs
  max 1 c

/-- Chord with its `id` blanked, for comparing generator outputs across
invocation times (the `id` is the only field built from `Date.now()`). -/
def eraseId (c : Reharm.Chord) : Reharm.Chord := { c with id := "" }

/-- Invariant of the `analyzeRhymes` grouping loop: after processing the
end-word list `seen`, the `patterns` array mirrors the group patterns and is
duplicate-free, each group holds exactly the processed words with its
pattern (in order), and every processed word's pattern has a group. -/
def RhymeInv (seen : List String) (st : List Lyrics.RhymeGroup × List String) : Prop :=
  st.2 = st.1.map Lyrics.RhymeGroup.pattern ∧
  st.2.Nodup ∧
  (∀ g ∈ st.1, g.words = seen.filter (fun w => Lyrics.getRhymePattern w == g.pattern)) ∧
  (∀ w ∈ seen, Lyrics.getRhymePattern w ∈ st.2)

/-! ## Shared helper lemmas -/

/-- Mapping a function over a list with an element inserted at an index. -/
theorem map_insertIdx {α β : Type} (f : α → β) (a : α) :
    ∀ (n : Nat) (l : List α), (l.insertIdx n a).map f = (l.map f).insertIdx n (f a)
  | 0, _ => rfl
  | _ + 1, [] => rfl
  | n + 1, c :: l => by
    simp [List.insertIdx_succ_cons, map_insertIdx f a n l]

/-! ## C1: suggestions generated from an empty chord sequence -/

/-- C1 counterexample: on the empty progression the suggestion generator
returns twelve suggestions (one per strategy instantiation), not the empty
list the claim states. -/
theorem c1_counterexample :
    (Reharm.generateSuggestions "C" [] 0).length = 12 ∧
    Reharm.generateSuggestions "C" [] 0 ≠ [] := by decide

/-- C1 (amended): for every key and invocation time, the suggestion generator
on an empty chord sequence returns (without error) exactly twelve
suggestions, each of whose resulting progressions is empty. -/
theorem c1_empty_input (key : String) (now : Nat) :
    (Reharm.generateSuggestions key [] now).length = 12 ∧
    (Reharm.generateSuggestions key [] now).map Reharm.ReharmSuggestion.chords =
      List.replicate 12 [] :=
  ⟨rfl, rfl⟩

/-! ## C3: scale lookup for unknown keys -/

/-- C3 counterexample: "H" is not a key of either `majorScales` table, yet
both `getScale` functions return the C-major scale for it instead of
failing. -/
theorem c3_counterexample :
    Guard.majorScales.lookup "H" = none ∧
    Reharm.majorScales.lookup "H" = none ∧
    Guard.getScale "H" = ["C", "D", "E", "F", "G", "A", "B"] ∧
    Reharm.getScale "H" = ["C", "D", "E", "F", "G", "A", "B"] := by decide

/-- C3 (amended): for every key string not in the major-key table, both
`getScale` implementations silently return the C-major scale (there is no
`UnsupportedKeyError` in the code). -/
theorem c3_unknown_key_fallback (key : String)
    (hG : Guard.majorScales.lookup key = none)
    (hR : Reharm.majorScales.lookup key = none) :
    Guard.getScale key = ["C", "D", "E", "F", "G", "A", "B"] ∧
    Reharm.getScale key = ["C", "D", "E", "F", "G", "A", "B"] := by
  constructor
  · unfold Guard.getScale
    rw [hG]
    decide
  · unfold Reharm.getScale
    rw [hR]
    decide

/-- C3 witness: the amended theorem applied to the unknown key "H". -/
theorem c3_witness :
    Guard.getScale "H" = ["C", "D", "E", "F", "G", "A", "B"] ∧
    Reharm.getScale "H" = ["C", "D", "E", "F", "G", "A", "B"] :=
  c3_unknown_key_fallback "H" (by decide) (by decide)

/-! ## C5: the syllable counting algorithm -/

/-- C5 counterexample: on "beautiful" both `countSyllables` implementations
return 4 (five vowel characters, minus one for the "eau" cluster), while the
claim's run-based counter returns 3 (three maximal vowel runs). -/
theorem c5_counterexample :
    Lyrics.countSyllables "beautiful" = 4 ∧
    Guard.countSyllables "beautiful" = 4 ∧
    vowelRuns "beautiful".data = 3 ∧
    countSyllablesRunBased "beautiful" = 3 ∧
    Lyrics.countSyllables "beautiful" ≠ countSyllablesRunBased "beautiful" := by decide

/-- C5 (amended): both `countSyllables` implementations agree and return the
number of individual `[aeiouy]` vowel characters (not runs), decremented by
one when the word ends in e and the vowel count exceeds one, decremented by
one more when the word contains two or more consecutive `[aeiou]` vowels,
and floored at one; in particular the result is never less than one. -/
theorem c5_syllable_count (word : String) :
    1 ≤ Lyrics.countSyllables word ∧
    Guard.countSyllables word = Lyrics.countSyllables word ∧
    Lyrics.countSyllables word =
      max 1 ((word.data.filter isVowelY).length
        - (if endsWithE word && decide (1 < (word.data.filter isVowelY).length) then 1 else 0)
        - (if hasVowelCluster word.data then 1 else 0)) := by
  refine ⟨?_, rfl, ?_⟩
  · dsimp only [Lyrics.countSyllables]
    split
    · exact le_refl 1
    · exact le_max_left 1 _
  · dsimp only [Lyrics.countSyllables]
    split
    · rename_i h
      rw [List.isEmpty_iff] at h
      rw [h]
      simp
    · by_cases he : endsWithE word && decide (1 < (word.data.filter isVowelY).length) <;>
        by_cases hc : hasVowelCluster word.data <;>
        simp [he, hc]

/-! ## C7: tritone substitution root mapping -/

/-- C7 counterexample: for the flat-spelled root "Bb" (absent from the
sharp-spelled `notes` table, so `indexOf` yields -1) the tritone map gives
"F", and applying it twice gives "B", not "Bb" — the involution fails. -/
theorem c7_counterexample :
    Reharm.getTritoneSubstitution "Bb" = "F" ∧
    Reharm.getTritoneSubstitution (Reharm.getTritoneSubstitution "Bb") = "B" ∧
    ("B" : String) ≠ "Bb" := by decide

/-- C7 (amended): the tritone map sends C to F#, and it is an involution on
every root that appears in the 12-entry sharp-spelled `notes` table. -/
theorem c7_tritone (root : String) (h : root ∈ Reharm.notes) :
    Reharm.getTritoneSubstitution "C" = "F#" ∧
    Reharm.getTritoneSubstitution (Reharm.getTritoneSubstitution root) = root := by
  refine ⟨by decide, ?_⟩
  simp only [Reharm.notes, List.mem_cons, List.not_mem_nil, or_false] at h
  rcases h with rfl | rfl | rfl | rfl | rfl | rfl | rfl | rfl | rfl | rfl | rfl | rfl <;> decide

/-- C7 witness: the amended theorem applied to the table root "D#". -/
theorem c7_witness :
    Reharm.getTritoneSubstitution "C" = "F#" ∧
    Reharm.getTritoneSubstitution (Reharm.getTritoneSubstitution "D#") = "D#" :=
  c7_tritone "D#" (by decide)

/-! ## C4: the secondary-dominant insertion strategy -/

/-- C4 counterexample: for a target chord of duration 2 at position 4, the
inserted dominant receives the target's full duration 2 (not half, 1) and
position 4 - 0.5, and the target chord itself is left entirely unchanged
(not offset by the half-duration). -/
theorem c4_counterexample :
    Reharm.generateSecondaryDominantProgression "C"
        [⟨"c1", "G", "", [], "V", "V", "5", 2, 4⟩] "V/V" 0 =
      [⟨"secondary_0", "D", "7", [], "V/V", "II7", "2", 2, 4 - 0.5⟩,
       ⟨"c1", "G", "", [], "V", "V", "5", 2, 4⟩] ∧
    (4 : ℚ) - 0.5 = 7 / 2 ∧
    (2 : ℚ) ≠ 2 / 2 ∧
    (4 : ℚ) ≠ 4 + 2 / 2 :=
  ⟨rfl, by norm_num, by norm_num, by norm_num⟩

/-- C4 (amended): when a chord whose HarmonicFunction tag matches the
resolution target exists, the strategy inserts the table's dominant chord
immediately before it, carrying the target's full duration and the target's
position minus a fixed 0.5, leaving the target (and every other chord)
unchanged; when no chord matches, the progression is returned unmodified. -/
theorem c4_secondary_dominant_insert (key : String) (cs : List Reharm.Chord)
    (fn : String) (now : Nat) :
    (∀ ti t sd, Reharm.findTargetChordIndex cs fn = some ti → cs.get? ti = some t →
      Reharm.SECONDARY_DOMINANTS.lookup fn = some sd →
      Reharm.generateSecondaryDominantProgression key cs fn now =
        cs.insertIdx ti
          { id := "secondary_" ++ toString now
            root := sd.root
            quality := sd.quality
            extensions := []
            function := fn
            roman := Reharm.getRomanNumeral sd.root sd.quality key
            nashville := Reharm.getNashvilleNumber sd.root key
            duration := t.duration
            position := t.position - 0.5 }) ∧
    (Reharm.findTargetChordIndex cs fn = none →
      Reharm.generateSecondaryDominantProgression key cs fn now = cs) := by
  constructor
  · intro ti t sd hti ht hsd
    unfold Reharm.generateSecondaryDominantProgression
    rw [hti]
    dsimp only
    rw [hsd]
    dsimp only
    have hgd : cs.getD ti Reharm.defaultChord = t := by
      rw [List.getD_eq_getD_get?, ht]
      rfl
    rw [hgd]
  · intro h
    unfold Reharm.generateSecondaryDominantProgression
    rw [h]

/-- C4 witness: the amended theorem applied to a one-chord progression whose
chord carries the targeted function tag "V". -/
theorem c4_witness :
    Reharm.generateSecondaryDominantProgression "C"
        [⟨"c1", "G", "", [], "V", "V", "5", 2, 4⟩] "V/V" 0 =
      ([⟨"c1", "G", "", [], "V", "V", "5", 2, 4⟩] : List Reharm.Chord).insertIdx 0
        { id := "secondary_" ++ toString 0
          root := "D"
          quality := "7"
          extensions := []
          function := "V/V"
          roman := Reharm.getRomanNumeral "D" "7" "C"
          nashville := Reharm.getNashvilleNumber "D" "C"
          duration := 2
          position := 4 - 0.5 } :=
  (c4_secondary_dominant_insert "C" [⟨"c1", "G", "", [], "V", "V", "5", 2, 4⟩] "V/V" 0).1
    0 ⟨"c1", "G", "", [], "V", "V", "5", 2, 4⟩ ⟨"D", "7", "Secondary dominant to V"⟩
    (by decide) (by decide) (by decide)

/-! ## C6: determinism of the strategy functions -/

/-- Strategy outputs of `generateSecondaryDominantProgression` agree at any
two invocation times once the id field is blanked. -/
theorem mapEraseId_secDom (key : String) (cs : List Reharm.Chord) (fn : String)
    (n₁ n₂ : Nat) :
    (Reharm.generateSecondaryDominantProgression key cs fn n₁).map eraseId =
      (Reharm.generateSecondaryDominantProgression key cs fn n₂).map eraseId := by
  unfold Reharm.generateSecondaryDominantProgression
  cases Reharm.findTargetChordIndex cs fn with
  | none => rfl
  | some ti =>
    cases Reharm.SECONDARY_DOMINANTS.lookup fn with
    | none => rfl
    | some sd =>
      dsimp only
      rw [map_insertIdx, map_insertIdx]
      rfl

/-- Strategy outputs of `generateModalInterchangeProgression` agree at any
two invocation times once the id field is blanked. -/
theorem mapEraseId_modal (key : String) (cs : List Reharm.Chord) (fn : String)
    (n₁ n₂ : Nat) :
    (Reharm.generateModalInterchangeProgression key cs fn n₁).map eraseId =
      (Reharm.generateModalInterchangeProgression key cs fn n₂).map eraseId := by
  unfold Reharm.generateModalInterchangeProgression
  cases Reharm.MODAL_INTERCHANGE.lookup fn with
  | none => rfl
  | some mc =>
    cases Reharm.findModalInterchangeTarget cs fn with
    | none => rfl
    | some ti =>
      dsimp only
      rw [List.map_set, List.map_set]
      rfl

/-- Strategy outputs of `generateTritoneSubstitution` agree at any two
invocation times once the id field is blanked. -/
theorem mapEraseId_tritone (key : String) (cs : List Reharm.Chord) (n₁ n₂ : Nat) :
    (Reharm.generateTritoneSubstitution key cs n₁).map eraseId =
      (Reharm.generateTritoneSubstitution key cs n₂).map eraseId := by
  unfold Reharm.generateTritoneSubstitution
  rw [List.map_map, List.map_map]
  apply List.map_eq_map_iff.mpr
  intro c _
  dsimp only [Function.comp]
  by_cases h : strIncludes c.quality "7" && !(strIncludes c.quality "maj7")
  · simp only [h]
    rfl
  · simp only [h]
    rfl

/-- C6 counterexample: invocations at times 0 and 1 on the same input differ
(the generated chords' id fields embed the invocation time). -/
theorem c6_counterexample :
    Reharm.generateSecondaryDominantProgression "C"
        [⟨"c1", "G", "", [], "V", "V", "5", 2, 4⟩] "V/V" 0 ≠
      Reharm.generateSecondaryDominantProgression "C"
        [⟨"c1", "G", "", [], "V", "V", "5", 2, 4⟩] "V/V" 1 ∧
    Reharm.generateTritoneSubstitution "C" [⟨"c2", "G", "7", [], "V", "V7", "5", 1, 0⟩] 0 ≠
      Reharm.generateTritoneSubstitution "C" [⟨"c2", "G", "7", [], "V", "V7", "5", 1, 0⟩] 1 := by
  decide

/-- C6 (amended): every strategy function, and the whole suggestion
generator, is a deterministic transform of its explicit inputs except for
the generated chords' id fields, which embed the invocation time: blanking
ids, any two invocation times yield identical outputs. -/
theorem c6_time_independent (key : String) (cs : List Reharm.Chord) (fn : String)
    (n₁ n₂ : Nat) :
    (Reharm.generateSecondaryDominantProgression key cs fn n₁).map eraseId =
      (Reharm.generateSecondaryDominantProgression key cs fn n₂).map eraseId ∧
    (Reharm.generateModalInterchangeProgression key cs fn n₁).map eraseId =
      (Reharm.generateModalInterchangeProgression key cs fn n₂).map eraseId ∧
    (Reharm.generateTritoneSubstitution key cs n₁).map eraseId =
      (Reharm.generateTritoneSubstitution key cs n₂).map eraseId ∧
    (Reharm.generateSuggestions key cs n₁).map (fun s => s.chords.map eraseId) =
      (Reharm.generateSuggestions key cs n₂).map (fun s => s.chords.map eraseId) := by
  refine ⟨mapEraseId_secDom key cs fn n₁ n₂, mapEraseId_modal key cs fn n₁ n₂,
    mapEraseId_tritone key cs n₁ n₂, ?_⟩
  simp only [Reharm.generateSuggestions, Reharm.SECONDARY_DOMINANTS, Reharm.MODAL_INTERCHANGE,
    List.map_cons, List.map_nil, List.map_append, List.cons_append, List.nil_append,
    List.cons.injEq, and_true]
  exact ⟨mapEraseId_secDom key cs "V/V" n₁ n₂, mapEraseId_secDom key cs "V/IV" n₁ n₂,
    mapEraseId_secDom key cs "V/vi" n₁ n₂, mapEraseId_secDom key cs "V/ii" n₁ n₂,
    mapEraseId_secDom key cs "V/iii" n₁ n₂, mapEraseId_modal key cs "bVII" n₁ n₂,
    mapEraseId_modal key cs "bVI" n₁ n₂, mapEraseId_modal key cs "bIII" n₁ n₂,
    mapEraseId_modal key cs "bII" n₁ n₂, mapEraseId_modal key cs "iv" n₁ n₂,
    mapEraseId_tritone key cs n₁ n₂⟩

/-! ## C8: the extended-harmony strategy is a pure extensions update -/

/-- C8: the extended-harmony strategy keeps the progression length and every
field of every chord except `extensions`, which it sets per quality:
maj7-containing qualities get 9 and 13; otherwise m7-containing qualities
get 9 and 11; otherwise 7-containing qualities get 9, 11 and 13; all other
qualities get the empty set. -/
theorem c8_extended_harmony (cs : List Reharm.Chord) (i : Nat) (hi : i < cs.length) :
    (Reharm.generateExtendedHarmony cs).length = cs.length ∧
    ∃ c c', cs.get? i = some c ∧ (Reharm.generateExtendedHarmony cs).get? i = some c' ∧
      c'.id = c.id ∧ c'.root = c.root ∧ c'.quality = c.quality ∧
      c'.function = c.function ∧ c'.roman = c.roman ∧ c'.nashville = c.nashville ∧
      c'.duration = c.duration ∧ c'.position = c.position ∧
      c'.extensions = (if strIncludes c.quality "maj7" then ["9", "13"]
        else if strIncludes c.quality "m7" then ["9", "11"]
        else if strIncludes c.quality "7" then ["9", "11", "13"]
        else []) := by
  unfold Reharm.generateExtendedHarmony
  constructor
  · exact List.length_map cs _
  · refine ⟨cs.get ⟨i, hi⟩,
      { cs.get ⟨i, hi⟩ with extensions := Reharm.getExtendedHarmony (cs.get ⟨i, hi⟩).quality },
      ?_, ?_, rfl, rfl, rfl, rfl, rfl, rfl, rfl, rfl, rfl⟩
    · exact List.get?_eq_get hi
    · rw [List.get?_map, List.get?_eq_get hi]
      rfl

/-- C8 witness: the theorem applied to a one-chord progression with a maj7
quality. -/
theorem c8_witness :
    (Reharm.generateExtendedHarmony [⟨"x", "C", "maj7", [], "I", "Imaj7", "1", 1, 0⟩]).length =
      ([⟨"x", "C", "maj7", [], "I", "Imaj7", "1", 1, 0⟩] : List Reharm.Chord).length ∧
    ∃ c c', ([⟨"x", "C", "maj7", [], "I", "Imaj7", "1", 1, 0⟩] : List Reharm.Chord).get? 0 = some c ∧
      (Reharm.generateExtendedHarmony [⟨"x", "C", "maj7", [], "I", "Imaj7", "1", 1, 0⟩]).get? 0 = some c' ∧
      c'.id = c.id ∧ c'.root = c.root ∧ c'.quality = c.quality ∧
      c'.function = c.function ∧ c'.roman = c.roman ∧ c'.nashville = c.nashville ∧
      c'.duration = c.duration ∧ c'.position = c.position ∧
      c'.extensions = (if strIncludes c.quality "maj7" then ["9", "13"]
        else if strIncludes c.quality "m7" then ["9", "11"]
        else if strIncludes c.quality "7" then ["9", "11", "13"]
        else []) :=
  c8_extended_harmony [⟨"x", "C", "maj7", [], "I", "Imaj7", "1", 1, 0⟩] 0 (by decide)

/-! ## C9: suggestions never shorten the progression -/

/-- The secondary-dominant strategy never shortens the progression. -/
theorem length_le_secDom (key : String) (cs : List Reharm.Chord) (fn : String) (now : Nat) :
    cs.length ≤ (Reharm.generateSecondaryDominantProgression key cs fn now).length := by
  unfold Reharm.generateSecondaryDominantProgression
  cases h : Reharm.findTargetChordIndex cs fn with
  | none => exact le_refl _
  | some ti =>
    cases Reharm.SECONDARY_DOMINANTS.lookup fn with
    | none => exact le_refl _
    | some sd =>
      dsimp only
      have hti : ti < cs.length := by
        unfold Reharm.findTargetChordIndex at h
        cases h2 : Reharm.targetMap.lookup fn with
        | none =>
          rw [h2] at h
          exact absurd h (by simp)
        | some target =>
          rw [h2] at h
          dsimp only at h
          exact (List.findIdx?_eq_some_iff_findIdx_eq.mp h).1
      rw [List.length_insertIdx ti cs (le_of_lt hti)]
      exact Nat.le_succ _

/-- The modal-interchange strategy preserves the progression length. -/
theorem length_le_modal (key : String) (cs : List Reharm.Chord) (fn : String) (now : Nat) :
    cs.length ≤ (Reharm.generateModalInterchangeProgression key cs fn now).length := by
  unfold Reharm.generateModalInterchangeProgression
  cases Reharm.MODAL_INTERCHANGE.lookup fn with
  | none => exact le_refl _
  | some mc =>
    cases Reharm.findModalInterchangeTarget cs fn with
    | none => exact le_refl _
    | some ti =>
      dsimp only
      exact le_of_eq (List.length_set cs ti _).symm

/-- C9: every suggestion produced by the generator has a resulting
progression at least as long as the input progression. -/
theorem c9_suggestion_length (key : String) (cs : List Reharm.Chord) (now : Nat) :
    ∀ s ∈ Reharm.generateSuggestions key cs now, cs.length ≤ s.chords.length := by
  intro s hs
  simp only [Reharm.generateSuggestions, List.mem_append, List.mem_map, List.mem_cons,
    List.not_mem_nil, or_false, List.mem_singleton] at hs
  rcases hs with ((⟨p, _, rfl⟩ | ⟨p, _, rfl⟩) | rfl) | rfl
  · exact length_le_secDom key cs p.1 now
  · exact length_le_modal key cs p.1 now
  · dsimp only
    unfold Reharm.generateTritoneSubstitution
    exact le_of_eq (List.length_map cs _).symm
  · dsimp only
    unfold Reharm.generateExtendedHarmony
    exact le_of_eq (List.length_map cs _).symm

/-- C9 witness: the theorem applied to the tritone-substitution suggestion
generated from the empty progression. -/
theorem c9_witness :
    ([] : List Reharm.Chord).length ≤
      ({ id := "tritone_sub"
         description := "Tritone substitution for dominant chords"
         chords := []
         complexity := "advanced"
         style := "Jazz"
         confidence := 0.6 } : Reharm.ReharmSuggestion).chords.length :=
  c9_suggestion_length "C" [] 0 _ (by
    unfold Reharm.generateSuggestions
    exact List.mem_append_left _ (List.mem_append_right _ (List.mem_cons_self _ _)))

/-! ## C2: non-diatonic warnings are not suppressed by the detectors -/

/-- Every warning pushed while visiting the chord at `index` carries that
index as its position. -/
theorem pos_of_mem_warningsForChord (key : String) (scale : List String)
    (all : List Guard.GChord) (i : Nat) (c : Guard.GChord) (w : Guard.ProsodyWarning)
    (hw : w ∈ Guard.warningsForChord key scale all i c) : w.position = i := by
  unfold Guard.warningsForChord at hw
  simp only [List.mem_append] at hw
  rcases hw with (hw | hw) | hw <;> (split at hw <;> simp_all)

/-- A medium-severity warning is pushed for a chord exactly when its root is
outside the scale, independently of the two low-severity detectors. -/
theorem medium_mem_warningsForChord (key : String) (scale : List String)
    (all : List Guard.GChord) (i : Nat) (c : Guard.GChord) :
    (∃ w ∈ Guard.warningsForChord key scale all i c,
        w.severity = Guard.Severity.medium) ↔
      scale.contains c.root = false := by
  unfold Guard.warningsForChord
  by_cases h1 : c.root ∈ scale <;>
    by_cases h2 : Guard.isSecondaryDominant c all i <;>
      by_cases h3 : Guard.isModalInterchange c key <;>
        simp [h1, h2, h3]

/-- Membership in the output of `checkNonDiatonicWarnings`, decomposed along
the `forEach` loop over the indexed chords. -/
theorem mem_checkNonDiatonicWarnings (key : String) (chords : List Guard.GChord)
    (w : Guard.ProsodyWarning) :
    w ∈ Guard.checkNonDiatonicWarnings key chords ↔
      ∃ j, ∃ hj : j < chords.length,
        w ∈ Guard.warningsForChord key (Guard.getScale key) chords j
          (chords.get ⟨j, hj⟩) := by
  unfold Guard.checkNonDiatonicWarnings
  rw [List.mem_flatMap]
  constructor
  · rintro ⟨⟨j, c⟩, hp, hw⟩
    have h := List.mem_enum_iff_getElem?.mp hp
    have hj : j < chords.length := (List.getElem?_eq_some_iff.mp h).1
    refine ⟨j, hj, ?_⟩
    have hc : chords.get ⟨j, hj⟩ = c := by
      have h2 := List.getElem?_eq_getElem hj
      rw [h2] at h
      rw [List.get_eq_getElem]
      exact Option.some.inj h
    rw [hc]
    exact hw
  · rintro ⟨j, hj, hw⟩
    refine ⟨(j, chords.get ⟨j, hj⟩), ?_, hw⟩
    rw [List.mem_enum_iff_getElem?]
    rw [List.get_eq_getElem]
    exact List.getElem?_eq_getElem hj

/-- C2 counterexample: in key C the chord Ab maj7 is recognized as modal
interchange, yet `checkNonDiatonicWarnings` still emits the medium-severity
non-diatonic warning for it (followed by the low-severity note) — the
medium warning is not suppressed as the claim states. -/
theorem c2_counterexample :
    Guard.isModalInterchange ⟨"Ab", "maj7"⟩ "C" = true ∧
    (Guard.getScale "C").contains "Ab" = false ∧
    (Guard.checkNonDiatonicWarnings "C" [⟨"Ab", "maj7"⟩]).map
        (fun w => (w.severity, w.type)) =
      [(Guard.Severity.medium, Guard.WarningType.nonDiatonic),
       (Guard.Severity.low, Guard.WarningType.nonDiatonic)] := by decide

/-- C2 (amended): `checkNonDiatonicWarnings` emits a medium-severity
non-diatonic warning at position `i` exactly when the root of the chord at
`i` lies outside the key's diatonic scale — the secondary-dominant and
modal-interchange detectors add separate low-severity notes and never
suppress the medium warning; in particular D7 immediately followed by G in
key C receives no medium warning (but only because D is diatonic in C). -/
theorem c2_nondiatonic_medium (key : String) (chords : List Guard.GChord) (i : Nat)
    (hi : i < chords.length) :
    ((∃ w ∈ Guard.checkNonDiatonicWarnings key chords,
        w.severity = Guard.Severity.medium ∧ w.position = i) ↔
      (Guard.getScale key).contains (chords.get ⟨i, hi⟩).root = false) ∧
    (∀ w ∈ Guard.checkNonDiatonicWarnings "C" [⟨"D", "7"⟩, ⟨"G", ""⟩],
      w.severity ≠ Guard.Severity.medium) := by
  constructor
  · constructor
    · rintro ⟨w, hw, hsev, hpos⟩
      rcases (mem_checkNonDiatonicWarnings key chords w).mp hw with ⟨j, hj, hw'⟩
      have hji : j = i := by
        rw [← hpos]
        exact (pos_of_mem_warningsForChord key _ chords j _ w hw').symm
      subst hji
      exact (medium_mem_warningsForChord key (Guard.getScale key) chords j
        (chords.get ⟨j, hj⟩)).mp ⟨w, hw', hsev⟩
    · intro h
      rcases (medium_mem_warningsForChord key (Guard.getScale key) chords i
          (chords.get ⟨i, hi⟩)).mpr h with ⟨w, hw, hsev⟩
      refine ⟨w, (mem_checkNonDiatonicWarnings key chords w).mpr ⟨i, hi, hw⟩, hsev, ?_⟩
      exact pos_of_mem_warningsForChord key _ chords i _ w hw
  · decide

/-- C2 witness: the amended theorem applied to key C and the one-chord
progression Ab maj7 (root outside the C-major scale). -/
theorem c2_witness :
    ((∃ w ∈ Guard.checkNonDiatonicWarnings "C" [⟨"Ab", "maj7"⟩],
        w.severity = Guard.Severity.medium ∧ w.position = 0) ↔
      (Guard.getScale "C").contains
        (([⟨"Ab", "maj7"⟩] : List Guard.GChord).get ⟨0, by decide⟩).root = false) ∧
    (∀ w ∈ Guard.checkNonDiatonicWarnings "C" [⟨"D", "7"⟩, ⟨"G", ""⟩],
      w.severity ≠ Guard.Severity.medium) :=
  c2_nondiatonic_medium "C" [⟨"Ab", "maj7"⟩] 0 (by decide)

/-! ## C10: rhyme grouping of short end words -/

/-- A word of length at most 2 is its own rhyme pattern. -/
theorem getRhymePattern_short (w : String) (h : w.length ≤ 2) :
    Lyrics.getRhymePattern w = w := by
  unfold Lyrics.getRhymePattern
  rw [if_pos h]

/-- `addToFirstGroup` does not change the list of group patterns. -/
theorem patterns_addToFirstGroup (gs : List Lyrics.RhymeGroup) (p w : String) :
    (Lyrics.addToFirstGroup gs p w).map Lyrics.RhymeGroup.pattern =
      gs.map Lyrics.RhymeGroup.pattern := by
  induction gs with
  | nil => rfl
  | cons g gs ih =>
    unfold Lyrics.addToFirstGroup
    by_cases h : g.pattern == p <;> simp [h, ih]

/-- `addToFirstGroup` keeps every group's word list equal to the filtered
list of processed words with its pattern, extending the processed list by
the new word, provided the group patterns are duplicate-free. -/
theorem words_addToFirstGroup (seen : List String) (w : String) :
    ∀ gs : List Lyrics.RhymeGroup,
      (gs.map Lyrics.RhymeGroup.pattern).Nodup →
      (∀ g ∈ gs, g.words = seen.filter (fun x => Lyrics.getRhymePattern x == g.pattern)) →
      ∀ g ∈ Lyrics.addToFirstGroup gs (Lyrics.getRhymePattern w) w,
        g.words = (seen ++ [w]).filter (fun x => Lyrics.getRhymePattern x == g.pattern)
  | [], _, _ => by intro g hg; cases hg
  | g0 :: gs, hnd, hwords => by
    rw [List.map_cons, List.nodup_cons] at hnd
    unfold Lyrics.addToFirstGroup
    by_cases hg0 : g0.pattern == Lyrics.getRhymePattern w
    · have hg0' : g0.pattern = Lyrics.getRhymePattern w := by simpa using hg0
      rw [if_pos hg0]
      intro g hg
      rcases List.mem_cons.mp hg with rfl | hmem
      · simp only [List.filter_append, List.filter_singleton]
        rw [← hwords g0 (List.mem_cons_self g0 gs)]
        have : (Lyrics.getRhymePattern w == g0.pattern) = true := by simp [hg0']
        rw [this]
        simp
      · have hne : Lyrics.getRhymePattern w ≠ g.pattern := by
          intro hcontra
          apply hnd.1
          rw [hg0', hcontra]
          exact List.mem_map_of_mem Lyrics.RhymeGroup.pattern hmem
        rw [hwords g (List.mem_cons_of_mem g0 hmem)]
        simp only [List.filter_append, List.filter_singleton]
        rw [beq_eq_false_iff_ne.mpr hne]
        simp
    · rw [if_neg hg0]
      intro g hg
      rcases List.mem_cons.mp hg with rfl | hmem
      · rw [hwords g (List.mem_cons_self g gs)]
        simp only [List.filter_append, List.filter_singleton]
        have hne : g.pattern ≠ Lyrics.getRhymePattern w := by simpa using hg0
        rw [beq_eq_false_iff_ne.mpr (Ne.symm hne)]
        simp
      · exact words_addToFirstGroup seen w gs hnd.2
          (fun g' hg' => hwords g' (List.mem_cons_of_mem g0 hg')) g hmem

/-- One loop iteration of the `analyzeRhymes` grouping preserves the
invariant `RhymeInv`. -/
theorem rhymeInv_addEndWord (seen : List String) (st : List Lyrics.RhymeGroup × List String)
    (w : String) (h : RhymeInv seen st) : RhymeInv (seen ++ [w]) (Lyrics.addEndWord st w) := by
  obtain ⟨hpat, hnd, hwords, hcov⟩ := h
  unfold Lyrics.addEndWord
  dsimp only
  by_cases hc : st.2.contains (Lyrics.getRhymePattern w)
  · rw [hc]
    simp only [Bool.not_true]
    rw [if_neg Bool.false_ne_true]
    have hnd' : (st.1.map Lyrics.RhymeGroup.pattern).Nodup := hpat ▸ hnd
    refine ⟨?_, hnd, ?_, ?_⟩
    · rw [patterns_addToFirstGroup]
      exact hpat
    · exact words_addToFirstGroup seen w st.1 hnd' hwords
    · intro w' hw'
      rcases List.mem_append.mp hw' with hmem | hmem
      · exact hcov w' hmem
      · rw [List.mem_singleton.mp hmem]
        exact List.mem_of_elem_eq_true hc
  · have hc' : st.2.contains (Lyrics.getRhymePattern w) = false := by
      simpa using hc
    rw [hc']
    simp only [Bool.not_false, if_true]
    have hnotmem : Lyrics.getRhymePattern w ∉ st.2 := by
      intro hcontra
      exact hc (List.elem_eq_true_of_mem hcontra)
    refine ⟨?_, ?_, ?_, ?_⟩
    · rw [List.map_append, ← hpat]
      rfl
    · rw [List.nodup_append]
      exact ⟨hnd, List.nodup_singleton _, by simpa using hnotmem⟩
    · intro g hg
      rcases List.mem_append.mp hg with hmem | hmem
      · rw [hwords g hmem]
        simp only [List.filter_append, List.filter_singleton]
        have hne : (Lyrics.getRhymePattern w == g.pattern) = false := by
          simp only [beq_eq_false_iff_ne, ne_eq]
          intro hcontra
          exact hnotmem (hcontra ▸ hpat ▸ List.mem_map_of_mem Lyrics.RhymeGroup.pattern hmem)
        rw [hne]
        simp
      · rw [List.mem_singleton.mp hmem]
        simp only [List.filter_append, List.filter_singleton]
        have h1 : seen.filter
            (fun x => Lyrics.getRhymePattern x == Lyrics.getRhymePattern w) = [] := by
          rw [List.filter_eq_nil_iff]
          intro a ha hcontra
          exact hnotmem ((by simpa using hcontra : Lyrics.getRhymePattern a =
            Lyrics.getRhymePattern w) ▸ hcov a ha)
        rw [h1]
        simp
    · intro w' hw'
      rcases List.mem_append.mp hw' with hmem | hmem
      · exact List.mem_append_left _ (hcov w' hmem)
      · rw [List.mem_singleton.mp hmem]
        exact List.mem_append_right _ (List.mem_singleton.mpr rfl)

/-- The grouping loop of `analyzeRhymes` preserves the invariant across any
word list. -/
theorem rhymeInv_foldl : ∀ (ws seen : List String)
    (st : List Lyrics.RhymeGroup × List String), RhymeInv seen st →
    RhymeInv (seen ++ ws) (ws.foldl Lyrics.addEndWord st)
  | [], seen, st, h => by simpa using h
  | w :: ws, seen, st, h => by
    have h2 := rhymeInv_foldl ws (seen ++ [w]) (Lyrics.addEndWord st w)
      (rhymeInv_addEndWord seen st w h)
    simpa [List.append_assoc] using h2

/-- The invariant at the end of the grouping loop over a text's end words. -/
theorem rhymeInv_endWords (text : String) :
    RhymeInv (Lyrics.endWords text)
      ((Lyrics.endWords text).foldl Lyrics.addEndWord ([], [])) := by
  have h0 : RhymeInv [] (([] : List Lyrics.RhymeGroup), ([] : List String)) := by
    refine ⟨rfl, List.nodup_nil, ?_, ?_⟩ <;> simp
  simpa using rhymeInv_foldl (Lyrics.endWords text) [] ([], []) h0

/-- A value sitting at two distinct positions of a list has count at least
two. -/
theorem two_le_count_of_ne_get {α : Type} [DecidableEq α] (l : List α)
    (i j : Fin l.length) (hij : i ≠ j) (h : l.get i = l.get j) :
    2 ≤ l.count (l.get i) := by
  rw [← List.duplicate_iff_two_le_count]
  rcases lt_or_gt_of_ne hij with hlt | hgt
  · exact List.duplicate_iff_exists_distinct_get.mpr ⟨i, j, hlt, rfl, h⟩
  · exact List.duplicate_iff_exists_distinct_get.mpr ⟨j, i, hgt, h, rfl⟩

/-- C10: a line-final word of length at most 2 (after lowercasing and
stripping non-word characters) is used whole as its rhyme-pattern key, and
two lines with such short end words land in a common rhyme group of
`analyzeRhymes` exactly when their end words are equal. -/
theorem c10_short_rhyme (text : String) (i j : Nat) (hij : i ≠ j)
    (hi : i < (Lyrics.endWords text).length) (hj : j < (Lyrics.endWords text).length)
    (hwi : ((Lyrics.endWords text).get ⟨i, hi⟩).length ≤ 2)
    (hwj : ((Lyrics.endWords text).get ⟨j, hj⟩).length ≤ 2) :
    Lyrics.getRhymePattern ((Lyrics.endWords text).get ⟨i, hi⟩) =
      (Lyrics.endWords text).get ⟨i, hi⟩ ∧
    ((∃ g ∈ Lyrics.analyzeRhymes text,
        (Lyrics.endWords text).get ⟨i, hi⟩ ∈ g.words ∧
        (Lyrics.endWords text).get ⟨j, hj⟩ ∈ g.words) ↔
      (Lyrics.endWords text).get ⟨i, hi⟩ = (Lyrics.endWords text).get ⟨j, hj⟩) := by
  obtain ⟨hpat, hnd, hwords, hcov⟩ := rhymeInv_endWords text
  refine ⟨getRhymePattern_short _ hwi, ⟨fun hex => ?_, fun heq => ?_⟩⟩
  · obtain ⟨g, hg, hgi, hgj⟩ := hex
    unfold Lyrics.analyzeRhymes at hg
    dsimp only at hg
    have hg' := List.mem_of_mem_filter hg
    rw [hwords g hg'] at hgi hgj
    have e1 : Lyrics.getRhymePattern ((Lyrics.endWords text).get ⟨i, hi⟩) = g.pattern := by
      simpa using (List.mem_filter.mp hgi).2
    have e2 : Lyrics.getRhymePattern ((Lyrics.endWords text).get ⟨j, hj⟩) = g.pattern := by
      simpa using (List.mem_filter.mp hgj).2
    calc (Lyrics.endWords text).get ⟨i, hi⟩
        = Lyrics.getRhymePattern ((Lyrics.endWords text).get ⟨i, hi⟩) :=
          (getRhymePattern_short _ hwi).symm
      _ = g.pattern := e1
      _ = Lyrics.getRhymePattern ((Lyrics.endWords text).get ⟨j, hj⟩) := e2.symm
      _ = (Lyrics.endWords text).get ⟨j, hj⟩ := getRhymePattern_short _ hwj
  · have hmem : (Lyrics.endWords text).get ⟨i, hi⟩ ∈ Lyrics.endWords text :=
      List.get_mem _ _ hi
    have hp := hcov _ hmem
    rw [hpat] at hp
    obtain ⟨g, hg, hgp⟩ := List.mem_map.mp hp
    have hw := hwords g hg
    have hwmem : (Lyrics.endWords text).get ⟨i, hi⟩ ∈ g.words := by
      rw [hw]
      exact List.mem_filter.mpr ⟨hmem, by simp [hgp]⟩
    have hcount : 2 ≤ (Lyrics.endWords text).count ((Lyrics.endWords text).get ⟨i, hi⟩) :=
      two_le_count_of_ne_get _ ⟨i, hi⟩ ⟨j, hj⟩ (by simpa using hij) heq
    have hlen : 1 < g.words.length := by
      rw [hw]
      calc 1 < 2 := Nat.one_lt_two
        _ ≤ (Lyrics.endWords text).count ((Lyrics.endWords text).get ⟨i, hi⟩) := hcount
        _ = ((Lyrics.endWords text).filter
              (fun x => Lyrics.getRhymePattern x == g.pattern)).count
              ((Lyrics.endWords text).get ⟨i, hi⟩) :=
          (List.count_filter (by simp [hgp])).symm
        _ ≤ ((Lyrics.endWords text).filter
              (fun x => Lyrics.getRhymePattern x == g.pattern)).length :=
          List.count_le_length _ _
    have hgfin : g ∈ Lyrics.analyzeRhymes text := by
      unfold Lyrics.analyzeRhymes
      dsimp only
      exact List.mem_filter.mpr ⟨hg, decide_eq_true hlen⟩
    exact ⟨g, hgfin, hwmem, heq ▸ hwmem⟩

/-- C10 witness: the theorem applied to the first two lines of a three-line
text whose end words are both the two-letter word "ox". -/
theorem c10_witness :
    Lyrics.getRhymePattern ((Lyrics.endWords "go ox\nsee ox\nhmm no").get ⟨0, by decide⟩) =
      (Lyrics.endWords "go ox\nsee ox\nhmm no").get ⟨0, by decide⟩ ∧
    ((∃ g ∈ Lyrics.analyzeRhymes "go ox\nsee ox\nhmm no",
        (Lyrics.endWords "go ox\nsee ox\nhmm no").get ⟨0, by decide⟩ ∈ g.words ∧
        (Lyrics.endWords "go ox\nsee ox\nhmm no").get ⟨1, by decide⟩ ∈ g.words) ↔
      (Lyrics.endWords "go ox\nsee ox\nhmm no").get ⟨0, by decide⟩ =
        (Lyrics.endWords "go ox\nsee ox\nhmm no").get ⟨1, by decide⟩) :=
  c10_short_rhyme "go ox\nsee ox\nhmm no" 0 1 (by decide) (by decide) (by decide)
    (by decide) (by decide)

end AMC
